import Mathlib

/-!
Shallow embedding of the execution-and-grading core of the python_trainer
repository: the grading validator (src/core/validator.py) and the sandboxed
process runner (src/core/runner.py).

Conventions of the embedding:
  - Python runtime values are modelled by the inductive type `Val`.
    Python floats are modelled as exact rationals; float and int values
    carry their numeric value, and bool is numeric (False = 0, True = 1)
    as in Python.  A Python `map` object is modelled as `Val.mapObj xs`
    where `xs` are the items it would yield; consuming it (list(...))
    exhausts it, which the evaluator models by rebinding the variable to
    `Val.mapObj []`.
  - A raised Python exception is modelled by `Except.error (e : PyErr)`;
    functions that can raise return `Except PyErr _`.  A function result
    of `Except.ok r` means the Python function returned `r` normally.
  - Learner-facing message strings are modelled by enumerations whose
    constructors carry exactly the data interpolated into the source
    format string; each constructor is documented with the original text.
-/

/-- Model of a Python runtime value, restricted to the shapes the grading
core manipulates.  `mapObj` models a lazy `map` object and carries the
items it has not yet yielded. -/
inductive Val where
  | int (i : Int)
  | float (q : ℚ)
  | bool (b : Bool)
  | str (s : String)
  | bytes (bs : List Nat)
  | list (xs : List Val)
  | tuple (xs : List Val)
  | mapObj (xs : List Val)
  | noneV

/-- Model of a raised Python exception: the exception class name
(type(exc)) and its message text. -/
structure PyErr where
  kind : String
  msg : String

/-- Numeric value of an int, float or bool, as in Python numeric
comparisons; `Option.none` for non-numeric values. -/
def pyNum? : Val → Option ℚ
  | .int i => some (i : ℚ)
  | .float q => some q
  | .bool b => some (if b then 1 else 0)
  | _ => Option.none

/-- Whether a value is numeric (int, float or bool). -/
def isNumV (v : Val) : Bool := (pyNum? v).isSome

/-- Numeric value of a numeric `Val` (0 for non-numeric; callers guard
with `isNumV`). -/
def numOf (v : Val) : ℚ := (pyNum? v).getD 0

mutual
/-- Model of the Python equality test `==` on embedded values: numbers
compare by numeric value across int, float and bool; strings, bytes,
lists and tuples compare structurally; a list never equals a tuple; map
objects use identity equality in Python, so two map values occurring at
distinct program points are unequal (false here); otherwise values of
different kinds are unequal. -/
def pyEq : Val → Val → Bool
  | a, b =>
    match pyNum? a, pyNum? b with
    | some x, some y => x = y
    | _, _ =>
      match a, b with
      | .str s, .str t => s = t
      | .bytes s, .bytes t => s = t
      | .list xs, .list ys => pyEqList xs ys
      | .tuple xs, .tuple ys => pyEqList xs ys
      | .noneV, .noneV => true
      | _, _ => false
/-- Element-wise Python equality of two value lists. -/
def pyEqList : List Val → List Val → Bool
  | [], [] => true
  | a :: as, b :: bs => pyEq a b && pyEqList as bs
  | _, _ => false
end

/-- Value of a digit string (callers ensure all characters are digits). -/
def digitsVal (cs : List Char) : Nat :=
  cs.foldl (fun acc c => acc * 10 + (c.toNat - 48)) 0

/-- Parse an unsigned decimal numeral, optionally with a fractional part,
as the Python float constructor accepts for plain decimal text.
Exponents and special values are outside the scope of this model. -/
def parseUnsignedDec (cs : List Char) : Option ℚ :=
  let intPart := cs.takeWhile Char.isDigit
  let rest := cs.dropWhile Char.isDigit
  match rest with
  | [] =>
    if intPart.isEmpty then Option.none
    else some ((digitsVal intPart : ℚ))
  | '.' :: frac =>
    if frac.all Char.isDigit && !(intPart.isEmpty && frac.isEmpty) then
      some (mkRat (digitsVal intPart * 10 ^ frac.length + digitsVal frac) (10 ^ frac.length))
    else Option.none
  | _ => Option.none

/-- Parse decimal text to a rational, modelling Python float(str): the
text is stripped of surrounding spaces and may carry a sign. -/
def parseDecStr (s : String) : Option ℚ :=
  let cs := s.toList.dropWhile (· = ' ')
  let cs := (cs.reverse.dropWhile (· = ' ')).reverse
  match cs with
  | '-' :: rest => (parseUnsignedDec rest).map (fun q => -q)
  | '+' :: rest => parseUnsignedDec rest
  | _ => parseUnsignedDec cs

/-- Model of the Python float(x) conversion applied by _list_close to
sequence elements: numeric values convert to their numeric value,
decimal text parses or raises ValueError, and other values raise
TypeError. -/
def pyFloat : Val → Except PyErr ℚ
  | .int i => .ok (i : ℚ)
  | .float q => .ok q
  | .bool b => .ok (if b then 1 else 0)
  | .str s =>
    match parseDecStr s with
    | some q => .ok q
    | Option.none => .error ⟨"ValueError", "could not convert string to float"⟩
  | .bytes bs =>
    match parseDecStr (String.mk (bs.map Char.ofNat)) with
    | some q => .ok q
    | Option.none => .error ⟨"ValueError", "could not convert string to float"⟩
  | _ => .error ⟨"TypeError", "float argument must be a string or a real number"⟩

/-- Decision of math.isclose(a, b, rel_tol = 0, abs_tol = 1e-6), that is
abs (a - b) LE 10 ^ (-6), computed by cross-multiplication so that it
evaluates inside the kernel.  The lemma isCloseAbs_iff below states the
intended reading. -/
def isCloseAbs (a b : ℚ) : Bool :=
  decide ((a.num * b.den - b.num * a.den).natAbs * 1000000 ≤ a.den * b.den)

theorem rat_sub_as_cross (a b : ℚ) :
    (a - b) = ((a.num * b.den - b.num * a.den : ℤ) : ℚ) / ((a.den * b.den : ℕ) : ℚ) := by
  have ha : ((a.den : ℚ)) ≠ 0 := by exact_mod_cast a.den_nz
  have hb : ((b.den : ℚ)) ≠ 0 := by exact_mod_cast b.den_nz
  have hA : (a.num : ℚ) = a * a.den := by
    have h := Rat.num_div_den a
    rw [div_eq_iff ha] at h
    exact h
  have hB : (b.num : ℚ) = b * b.den := by
    have h := Rat.num_div_den b
    rw [div_eq_iff hb] at h
    exact h
  have key : ((a.den * b.den : ℕ) : ℚ) ≠ 0 := by
    push_cast
    exact mul_ne_zero ha hb
  rw [eq_div_iff key]
  push_cast
  rw [hA, hB]
  ring

/-- The comparison used for ListClose elements holds exactly when the two
rationals differ by at most 10 ^ (-6) in absolute value: an absolute
tolerance of 1e-6 with zero relative tolerance. -/
theorem isCloseAbs_iff (a b : ℚ) : isCloseAbs a b = true ↔ |a - b| ≤ 1 / 1000000 := by
  have hD : (0 : ℚ) < ((a.den * b.den : ℕ) : ℚ) := by
    have := a.pos
    have := b.pos
    positivity
  rw [isCloseAbs, decide_eq_true_iff, rat_sub_as_cross a b, abs_div,
    abs_of_pos hD, div_le_div_iff₀ hD (by norm_num)]
  rw [← Int.cast_abs, Int.abs_eq_natAbs, one_mul]
  constructor
  · intro h
    exact_mod_cast h
  · intro h
    exact_mod_cast h

/-- Whether the needle list is an initial segment of the haystack list. -/
def leadsList (n h : List Char) : Bool :=
  match n, h with
  | [], _ => true
  | _ :: _, [] => false
  | a :: as, b :: bs => a = b && leadsList as bs

/-- Whether the needle occurs contiguously inside the haystack. -/
def hasSubList (n h : List Char) : Bool :=
  if leadsList n h then true
  else
    match h with
    | [] => false
    | _ :: bs => hasSubList n bs

/-- Model of the Python containment test `needle in haystack` on text. -/
def strHasSub (haystack needle : String) : Bool :=
  hasSubList needle.toList haystack.toList

/-- Whether an identifier contains the double-underscore marker, the test
written in the source as a containment of two underscores. -/
def hasDunder (s : String) : Bool := hasSubList ['_', '_'] s.toList

/-- Split a character list at newline characters with the semantics of
the Python splitlines method restricted to the LF separator: no empty
final line is produced for a trailing newline. -/
def splitLinesCh (cs : List Char) : List (List Char) :=
  match cs with
  | [] => []
  | c :: rest =>
    let r := splitLinesCh rest
    if c = '\n' then [] :: r
    else
      match r with
      | [] => [[c]]
      | h :: t => (c :: h) :: t

/-- Model of str.splitlines on a string. -/
def splitLines (s : String) : List String :=
  (splitLinesCh s.toList).map String.mk

/-- Whitespace characters stripped by str.strip / str.rstrip in this
model: space, tab, CR and LF (the characters that occur in the texts the
core manipulates). -/
def isWsChar (c : Char) : Bool := c = ' ' || c = '\t' || c = '\n' || c = '\r'

/-- Model of str.strip(): remove leading and trailing whitespace. -/
def pyStrip (s : String) : String :=
  String.mk (((s.toList.dropWhile isWsChar).reverse.dropWhile isWsChar).reverse)

/-- Last line of a text, used for the last line of stripped stderr. -/
def lastLine (s : String) : String :=
  String.mk ((splitLinesCh s.toList).getLastD [])

/-- Advisory notes appended by the Check Evaluator.  Original texts:
acceptedVarsHint is "Variables aceptadas: (alts and var, comma joined).",
mapToListHint is "Nota: te falta convertir map a list (usa list(map(...)))."
and convertedMapToList is "He convertido tu resultado (map) a lista para
comprobarlo.". -/
inductive Note where
  | acceptedVarsHint (alts : List String) (var : String)
  | mapToListHint
  | convertedMapToList

/-- Messages produced by _list_close.  Original texts: notAList is
"result no es una lista (es texto).", notIterable is "result debe ser una
lista, tupla o iterable.", lengthMismatch carries the two interpolated
lengths of "Tu lista tiene longitud incorrecta (esperado E, obtenido G).",
tolMismatch is "Los valores no coinciden con tolerancia 1e-6." (note that
it carries no index), and correct is "Correcto.". -/
inductive LMsg where
  | notAList
  | notIterable
  | lengthMismatch (expectedLen gotLen : Nat)
  | tolMismatch
  | correct

/-- The meta dictionary returned by _list_close: expected_len is always
present, got_len only on a length mismatch. -/
structure LMeta where
  expectedLen : Nat
  gotLen : Option Nat

/-- The tuple returned by _list_close: (ok, message, warnings, meta). -/
structure LCRes where
  pass : Bool
  msg : LMsg
  warns : List Note
  meta : LMeta

/-- Model of _as_list: text and byte values are returned unchanged, a map
object is materialized to a list with a conversion note, any other
non-list iterable (here: a tuple) is converted to a list, and everything
else is returned unchanged. -/
def «_as_list» (value : Val) : Val × List Note :=
  match value with
  | .str s => (.str s, [])
  | .bytes bs => (.bytes bs, [])
  | .mapObj xs => (.list xs, [.convertedMapToList])
  | .tuple xs => (.list xs, [])
  | v => (v, [])

/-- Whether a value is a text or byte sequence (the isinstance test for
str, bytes, bytearray). -/
def isTextual : Val → Bool
  | .str _ => true
  | .bytes _ => true
  | _ => false

/-- Model of the Python list(x) constructor on the embedded values for
which it succeeds; `Option.none` models the TypeError on non-iterables
which _list_close catches and maps to its notIterable message. -/
def pyItems : Val → Option (List Val)
  | .list xs => some xs
  | .tuple xs => some xs
  | .mapObj xs => some xs
  | _ => Option.none

/-- The element loop of _list_close: for each pair, convert the actual
element with float(a) (which can raise, uncaught in the source) and
compare with absolute tolerance 1e-6; the first mismatching pair returns
the tolerance message, which names no index. -/
def listCloseLoop (items : List Val) (expected : List ℚ) (warns : List Note)
    (expLen : Nat) : Except PyErr LCRes :=
  match items, expected with
  | a :: as, b :: bs =>
    match pyFloat a with
    | .error e => .error e
    | .ok x =>
      if isCloseAbs x b then listCloseLoop as bs warns expLen
      else .ok ⟨false, .tolMismatch, warns, ⟨expLen, Option.none⟩⟩
  | _, _ => .ok ⟨true, .correct, warns, ⟨expLen, Option.none⟩⟩

/-- Model of _list_close(got, expected): coerce with _as_list, reject
text values, materialize to items (TypeError becomes the notIterable
message), reject length mismatches naming both lengths, then compare
element-wise.  The Except layer carries exceptions raised by float(a)
inside the loop, which the source does not catch. -/
def «_list_close» (got : Val) (expected : List ℚ) : Except PyErr LCRes :=
  let gw := «_as_list» got
  if isTextual gw.1 then
    .ok ⟨false, .notAList, gw.2, ⟨expected.length, Option.none⟩⟩
  else
    match pyItems gw.1 with
    | Option.none => .ok ⟨false, .notIterable, gw.2, ⟨expected.length, Option.none⟩⟩
    | some items =>
      if items.length ≠ expected.length then
        .ok ⟨false, .lengthMismatch expected.length items.length, gw.2,
          ⟨expected.length, some items.length⟩⟩
      else listCloseLoop items expected gw.2 expected.length

/-- Model of the Python abstract syntax tree shapes the two analyzers
inspect.  Node kinds that neither analyzer matches are collapsed into
`other` (carrying their child nodes); constants are `constStr` for
string literals (matched by the dynamic-import detector) and `constVal`
for all other literals.  The alias objects below Import nodes trigger no
check in either analyzer and are omitted from the child lists. -/
inductive Ast where
  | module (body : List Ast)
  | imp (names : List String)
  | impFrom (moduleName : Option String)
  | globalStmt
  | nonlocalStmt
  | name (id : String)
  | attr (value : Ast) (attrName : String)
  | call (func : Ast) (args : List Ast)
  | assign (targets : List Ast) (value : Ast)
  | exprStmt (value : Ast)
  | constStr (s : String)
  | constVal
  | other (children : List Ast)

/-- Child nodes of a node in the field order of ast.iter_child_nodes. -/
def childrenOf : Ast → List Ast
  | .module body => body
  | .imp _ => []
  | .impFrom _ => []
  | .globalStmt => []
  | .nonlocalStmt => []
  | .name _ => []
  | .attr v _ => [v]
  | .call f args => f :: args
  | .assign ts v => ts ++ [v]
  | .exprStmt v => [v]
  | .constStr _ => []
  | .constVal => []
  | .other cs => cs

mutual
/-- Number of nodes of a tree, used as the exact iteration count of the
breadth-first walk below. -/
def astNodes : Ast → Nat
  | .module body => 1 + astNodesL body
  | .imp _ => 1
  | .impFrom _ => 1
  | .globalStmt => 1
  | .nonlocalStmt => 1
  | .name _ => 1
  | .attr v _ => 1 + astNodes v
  | .call f args => 1 + astNodes f + astNodesL args
  | .assign ts v => 1 + astNodesL ts + astNodes v
  | .exprStmt v => 1 + astNodes v
  | .constStr _ => 1
  | .constVal => 1
  | .other cs => 1 + astNodesL cs
/-- Total number of nodes of a list of trees. -/
def astNodesL : List Ast → Nat
  | [] => 0
  | a :: l => astNodes a + astNodesL l
end

/-- The queue loop of ast.walk: pop a node from the front, yield it, and
append its children at the back.  Each iteration pops exactly one node
and pushes only nodes below it, so a fuel equal to the total node count
performs the complete walk. -/
def walkFuel : Nat → List Ast → List Ast
  | 0, _ => []
  | _ + 1, [] => []
  | n + 1, t :: q => t :: walkFuel n (q ++ childrenOf t)

/-- Model of ast.walk(tree): all nodes in breadth-first order. -/
def walk (t : Ast) : List Ast := walkFuel (astNodes t) [t]

/-- Model of a Python SyntaxError raised by ast.parse: message text plus
the optional lineno and offset attributes. -/
structure SynErr where
  msg : String
  lineno : Option Nat
  offset : Option Nat

/-- Safety violations raised by _check_code_is_safe as ValidationError.
Original texts: syntaxErr carries the data of "Error de sintaxis: MSG
(linea L, columna C)."; noImports is "No se permiten imports en este
ejercicio."; noGlobalNonlocal is "No se permite usar global/nonlocal.";
noDunderNames is "No se permiten nombres con (dunder)."; noDunderAttrs
is "No se permiten atributos con (dunder)."; bannedCall carries the name
interpolated into "No se permite llamar a NAME.". -/
inductive SafetyMsg where
  | syntaxErr (msg : String) (lineno offset : Option Nat)
  | noImports
  | noGlobalNonlocal
  | noDunderNames
  | noDunderAttrs
  | bannedCall (fname : String)

/-- The banned_calls set of _check_code_is_safe. -/
def bannedCalls : List String :=
  ["__import__", "eval", "exec", "compile", "open", "input", "globals",
   "locals", "vars", "dir", "help", "getattr", "setattr", "delattr",
   "breakpoint"]

/-- The per-node tests of the strict analyzer loop, in the order the
source performs them; the first matching test yields the violation. -/
def nodeViolation : Ast → Option SafetyMsg
  | .imp _ => some .noImports
  | .impFrom _ => some .noImports
  | .globalStmt => some .noGlobalNonlocal
  | .nonlocalStmt => some .noGlobalNonlocal
  | .name id => if hasDunder id then some .noDunderNames else Option.none
  | .attr _ a => if hasDunder a then some .noDunderAttrs else Option.none
  | .call f _ =>
    match f with
    | .name id => if bannedCalls.contains id then some (.bannedCall id) else Option.none
    | _ => Option.none
  | _ => Option.none

/-- Model of _check_code_is_safe: a parse failure raises the syntax-error
violation; otherwise the first violating node of the breadth-first walk
raises its violation; `Option.none` means the code is accepted. -/
def «_check_code_is_safe» (parsed : Except SynErr Ast) : Option SafetyMsg :=
  match parsed with
  | .error se => some (.syntaxErr se.msg se.lineno se.offset)
  | .ok tree => (walk tree).findSome? nodeViolation

/-- Names of the limited builtins dictionary exposed to learner exec()
by _safe_builtins. -/
def «_safe_builtins» : List String :=
  ["abs", "float", "int", "len", "list", "map", "max", "min", "print",
   "range", "round", "sum", "enumerate", "str", "bool"]

/-- The BLOCKED_MODULES denylist of the runner. -/
def BLOCKED_MODULES : List String :=
  ["os", "sys", "shutil", "subprocess", "pathlib", "socket", "requests", "ctypes"]

/-- Root module name: the dotted name up to the first dot. -/
def rootModName (s : String) : String :=
  String.mk (s.toList.takeWhile (· ≠ '.'))

/-- The per-node test of _detect_blocked_import: an Import statement
reports its first alias whose root is denylisted, a from-import reports
its module root when denylisted, and a call of the dynamic-import
primitive with a string-literal first argument reports that root when
denylisted. -/
def nodeBlocked : Ast → Option String
  | .imp names =>
    names.findSome? (fun nm =>
      if BLOCKED_MODULES.contains (rootModName nm) then some (rootModName nm)
      else Option.none)
  | .impFrom m =>
    if BLOCKED_MODULES.contains (rootModName (m.getD "")) then
      some (rootModName (m.getD ""))
    else Option.none
  | .call f args =>
    match f, args with
    | .name fid, .constStr s :: _ =>
      if fid = "__import__" && BLOCKED_MODULES.contains (rootModName s) then
        some (rootModName s)
      else Option.none
    | _, _ => Option.none
  | _ => Option.none

/-- Model of _detect_blocked_import: parse failures are tolerated (no
module is reported); otherwise the first blocked import found in the
breadth-first walk is reported. -/
def «_detect_blocked_import» (parsed : Except SynErr Ast) : Option String :=
  match parsed with
  | .error _ => Option.none
  | .ok tree => (walk tree).findSome? nodeBlocked

/-- Status field of a runner result. -/
inductive RStatus where
  | blocked
  | timeout
  | error
  | ok

/-- Message field of a runner result.  Original texts: blockedImport
carries the module of "Import bloqueado por seguridad: M."; timeExceeded
is "Tiempo excedido."; resourceLimit is "Ejecucion detenida por limite de
recursos."; execCompleted is "Ejecucion completada."; stderrLine carries
the last line of the stripped stderr text; defaultExecError is "Error en
ejecucion."; spawnFailed carries the exception text of "No se pudo
ejecutar el codigo: E.". -/
inductive RMsg where
  | blockedImport (root : String)
  | timeExceeded
  | resourceLimit
  | execCompleted
  | stderrLine (s : String)
  | defaultExecError
  | spawnFailed (emsg : String)

/-- The warning appended when the pre-exec resource limiter is not
available on the host platform. -/
inductive RWarn where
  | limitsUnavailable

/-- The dictionary returned by run_user_code. -/
structure RunResult where
  status : RStatus
  stdout : String
  stderr : String
  message : RMsg
  durationMs : Nat
  warnings : List RWarn

/-- Outcome of the subprocess.run call, treated as an oracle for the host
process machinery: the wall-clock timeout expired (with the optional
partial streams of the TimeoutExpired exception), some other exception
was raised while spawning, or the child completed with an exit code and
captured text streams. -/
inductive SpawnOutcome where
  | timeoutExpired (stdoutTxt stderrTxt : Option String)
  | spawnError (emsg : String)
  | completed (returncode : Int) (stdoutTxt stderrTxt : String)

/-- Warnings of a run: empty when the resource limiter is available,
otherwise the unavailability note. -/
def warnsOf (limiterAvailable : Bool) : List RWarn :=
  if limiterAvailable then [] else [.limitsUnavailable]

/-- Message for a non-zero exit: the last line of the stripped stderr
text, or the default message when stderr is blank. -/
def errMsgOf (stderrTxt : String) : RMsg :=
  if pyStrip stderrTxt = "" then .defaultExecError
  else .stderrLine (lastLine (pyStrip stderrTxt))

/-- Model of run_user_code: run the coarse import detector and return
blocked without consulting the spawn outcome when it reports a module;
otherwise map the spawn outcome exactly as the source does.  The
perf-counter duration and the limiter availability of the host are
parameters of the model.  The blocked early return happens before the
limiter-availability warning is appended in the source, so its warnings
list is always empty; the post-spawn returns carry the warning when the
limiter is unavailable. -/
def run_user_code (parsed : Except SynErr Ast) (spawn : SpawnOutcome)
    (limiterAvailable : Bool) (durationMs : Nat) : RunResult :=
  match «_detect_blocked_import» parsed with
  | some m => ⟨.blocked, "", "", .blockedImport m, durationMs, []⟩
  | Option.none =>
    match spawn with
    | .timeoutExpired so se =>
      ⟨.timeout, so.getD "", se.getD "", .timeExceeded, durationMs, warnsOf limiterAvailable⟩
    | .spawnError m =>
      ⟨.error, "", "", .spawnFailed m, durationMs, warnsOf limiterAvailable⟩
    | .completed rc so se =>
      if rc < 0 then
        ⟨.timeout, so, se, .resourceLimit, durationMs, warnsOf limiterAvailable⟩
      else if rc = 0 then
        ⟨.ok, so, se, .execCompleted, durationMs, warnsOf limiterAvailable⟩
      else
        ⟨.error, so, se, errMsgOf se, durationMs, warnsOf limiterAvailable⟩

/-- The binding set: the locals dictionary mapping variable names to
values.  Keys are unique in every binding set the core builds. -/
abbrev Bindings := List (String × Val)

/-- Dictionary lookup in a binding set. -/
def lookupB (vars : Bindings) (k : String) : Option Val :=
  (vars.find? (fun p => p.1 = k)).map (fun p => p.2)

/-- The Python membership test `k in local_vars`. -/
def containsB (vars : Bindings) (k : String) : Bool := (lookupB vars k).isSome

/-- In-place update of a binding (models mutation of the object a name is
bound to, here the exhaustion of a map object). -/
def updateB (vars : Bindings) (k : String) (v : Val) : Bindings :=
  vars.map (fun p => if p.1 = k then (k, v) else p)

/-- A check record of an exercise descriptor.  The source represents
checks as keyed dictionaries dispatched on the "type" key; the closed
variants here carry the keys each branch of the evaluator reads ("var",
"expected", the optional "message", and for list_close the optional
"expected_summary").  A record whose type string is none of the three
supported ones is `unsupported`. -/
inductive Check where
  | equals (var : String) (expected : Val) (message : Option String)
  | listClose (var : String) (expected : List ℚ) (message : Option String)
      (expectedSummary : Option String)
  | outputContains (expected : String) (message : Option String)
  | unsupported

/-- An exercise descriptor as the validator reads it: setup variables,
the ordered check list, the accepted alternate variable names, and the
optional custom_check callable (modelled as a function that may raise). -/
structure Exercise where
  setup : Bindings
  checks : List Check
  acceptedVars : List String
  customCheck : Option (Bindings → String → Except PyErr (Bool × String))

/-- The default base message of a check, "Revisa tu solucion.". -/
def defaultBaseMsg : String := "Revisa tu solucion."

/-- Messages returned by the check evaluator.  Original texts:
storeUnderRequired carries the variable of "El calculo parece correcto,
pero el ejercicio exige guardar el resultado en una variable llamada
V."; varNotCreated carries the variable of "No has creado la variable
V."; equalsFail carries the base message and expected value of "BASE (se
esperaba E!r)."; listCloseFailSummary carries the inner _list_close
message and the summary of "MSG Se esperaba: S"; listCloseFailLen
carries the inner message and the expected length of "MSG Se esperaba
una lista de N numeros."; outputFail carries the base message and the
expected text of "BASE (la salida debe contener E)."; unsupported is
"Tipo de validacion no soportado."; correct is "Correcto.". -/
inductive Msg where
  | storeUnderRequired (var : String)
  | varNotCreated (var : String)
  | equalsFail (base : String) (expected : Val)
  | listCloseFailSummary (inner : LMsg) (summary : String)
  | listCloseFailLen (inner : LMsg) (expectedLen : Nat)
  | outputFail (base : String) (expected : String)
  | unsupported
  | correct

/-- Model of _select_var: the declared name wins when bound; otherwise
the first accepted alternate name that is bound wins; otherwise the
declared name is returned as not found, with the accepted-names note
when the alternate list is non-empty.  The source writes the alternate
scan as a loop returning on the first bound name, which is the find?
below. -/
def «_select_var» (var : String) (vars : Bindings) (ex : Exercise) :
    String × Bool × List Note :=
  if containsB vars var then (var, true, [])
  else
    match ex.acceptedVars.find? (fun a => containsB vars a) with
    | some alt => (alt, true, [])
    | Option.none =>
      (var, false,
        if ex.acceptedVars.isEmpty then []
        else [.acceptedVarsHint ex.acceptedVars var])

/-- The pre-scan of the evaluator: whether some output_contains check has
a non-empty expected text already contained in the captured output. -/
def outputHasExpected (checks : List Check) (capturedOut : String) : Bool :=
  checks.any (fun c =>
    match c with
    | .outputContains e _ => e ≠ "" && strHasSub capturedOut e
    | _ => false)

/-- The isinstance(x, map) test of the evaluator. -/
def isMapV : Val → Bool
  | .mapObj _ => true
  | _ => false

/-- The tuple returned by the check evaluator, extended with the binding
set after the run: the source mutates the locals dictionary only through
the exhaustion of map objects materialized by _list_close, which the
`vars` field carries explicitly. -/
structure EvalRes where
  pass : Bool
  msg : Msg
  notes : List Note
  vars : Bindings

/-- The main loop of _run_checks_with_exercise over the check list,
threading the pre-scan flag, the accumulated notes and the binding set.
Checks are evaluated in declaration order and the first failing check
returns; exceptions raised by _list_close propagate (the source has no
handler around this loop). -/
def runChecksLoop (checks : List Check) (vars : Bindings) (capturedOut : String)
    (ex : Exercise) (flag : Bool) (notes : List Note) : Except PyErr EvalRes :=
  match checks with
  | [] => .ok ⟨true, .correct, notes, vars⟩
  | c :: rest =>
    match c with
    | .equals var expected msg? =>
      let sel := «_select_var» var vars ex
      let notes := notes ++ sel.2.2
      if sel.2.1 then
        let val := (lookupB vars sel.1).getD .noneV
        if pyEq val expected then runChecksLoop rest vars capturedOut ex flag notes
        else .ok ⟨false, .equalsFail (msg?.getD defaultBaseMsg) expected, notes, vars⟩
      else if flag then
        .ok ⟨false, .storeUnderRequired sel.1, notes, vars⟩
      else
        .ok ⟨false, .varNotCreated sel.1, notes, vars⟩
    | .listClose var expected msg? summary? =>
      let sel := «_select_var» var vars ex
      let notes := notes ++ sel.2.2
      if sel.2.1 then
        let val := (lookupB vars sel.1).getD .noneV
        let isMap := isMapV val
        let notes := notes ++ (if isMap then [.mapToListHint] else [])
        let vars2 := if isMap then updateB vars sel.1 (.mapObj []) else vars
        match «_list_close» val expected with
        | .error e => .error e
        | .ok r =>
          let notes := notes ++ r.warns
          if r.pass then runChecksLoop rest vars2 capturedOut ex flag notes
          else if (summary?.getD "") ≠ "" then
            .ok ⟨false, .listCloseFailSummary r.msg (summary?.getD ""), notes, vars2⟩
          else
            .ok ⟨false, .listCloseFailLen r.msg r.meta.expectedLen, notes, vars2⟩
      else if flag then
        .ok ⟨false, .storeUnderRequired sel.1, notes, vars⟩
      else
        .ok ⟨false, .varNotCreated sel.1, notes, vars⟩
    | .outputContains expected msg? =>
      if strHasSub capturedOut expected then
        runChecksLoop rest vars capturedOut ex flag notes
      else
        .ok ⟨false, .outputFail (msg?.getD defaultBaseMsg) expected, notes, vars⟩
    | .unsupported => .ok ⟨false, .unsupported, notes, vars⟩

/-- Model of _run_checks_with_exercise: compute the output pre-scan flag
once, then run the checks in order with empty initial notes. -/
def «_run_checks_with_exercise» (checks : List Check) (vars : Bindings)
    (capturedOut : String) (ex : Exercise) : Except PyErr EvalRes :=
  runChecksLoop checks vars capturedOut ex (outputHasExpected checks capturedOut) []

/-- Message of the whitespace lint.  Original texts: useSpaces carries
the line of "Usa espacios en lugar de tabs en la linea L.";
removeTrailing carries the line of "Quita espacios al final de la linea
L."; empty is the empty message of the passing result. -/
inductive LintMsg where
  | empty
  | useSpaces (line : Nat)
  | removeTrailing (line : Nat)

/-- The tuple returned by _lint_whitespace: (ok, message, line, col). -/
structure LintRes where
  ok : Bool
  msg : LintMsg
  line : Nat
  col : Nat

/-- Leading whitespace of a line: the longest prefix of tabs and spaces,
as computed from line.lstrip in the source. -/
def leadingWs (cs : List Char) : List Char :=
  cs.takeWhile (fun c => c = ' ' || c = '\t')

/-- Column of the first tab of the leading indentation (1-based), when
one exists. -/
def tabCol (cs : List Char) : Option Nat :=
  ((leadingWs cs).findIdx? (fun c => c = '\t')).map (· + 1)

/-- Whether line.rstrip() differs from the line, that is the line ends in
whitespace. -/
def trailingDirty (cs : List Char) : Bool :=
  match cs.reverse with
  | [] => false
  | c :: _ => isWsChar c

/-- The per-line test of _lint_whitespace at a given 1-based index: a tab
in the indentation is reported first (with its column), then trailing
whitespace (with the line length as column). -/
def lineLintIssue (idx : Nat) (cs : List Char) : Option (LintMsg × Nat) :=
  match tabCol cs with
  | some col => some (.useSpaces idx, col)
  | Option.none =>
    if trailingDirty cs then some (.removeTrailing idx, cs.length)
    else Option.none

/-- Whether a line would be rejected by the whitespace lint. -/
def lineDirty (cs : List Char) : Bool := (lineLintIssue 1 cs).isSome

/-- The enumerate loop of _lint_whitespace starting at a given 1-based
index: the first offending line determines the result. -/
def lintLoop : Nat → List (List Char) → LintRes
  | _, [] => ⟨true, .empty, 0, 0⟩
  | idx, l :: ls =>
    match lineLintIssue idx l with
    | some mc => ⟨false, mc.1, idx, mc.2⟩
    | Option.none => lintLoop (idx + 1) ls

/-- Model of _lint_whitespace(code): scan the split lines from index 1. -/
def «_lint_whitespace» (code : String) : LintRes :=
  lintLoop 1 (splitLinesCh code.toList)

/-- Outcome of the exec call on learner code: normal completion with the
final locals dictionary and the captured stdout and stderr text, or a
raised exception (class name and message) together with the text
captured before the raise. -/
inductive ExecOutcome where
  | done (vars : Bindings) (stdout stderr : String)
  | raised (kind msg : String) (stdout stderr : String)

/-- A learner submission as the validator observes it: the raw text (for
the lexical lint), the ast.parse result of that text (for the safety
analysis), and the semantics of exec of that text under the restricted
builtins, as a function of the initial locals built from the exercise
setup.  The host parser and interpreter are oracles of the model; the
theorems below quantify over them. -/
structure Source where
  text : String
  parsed : Except SynErr Ast
  run : Bindings → ExecOutcome

/-- Status field of a validate_user_code result. -/
inductive VStatus where
  | ok
  | fail
  | error

/-- The details field: empty, or the traceback text of a caught
exception (carried as the exception data). -/
inductive Details where
  | empty
  | trace (kind msg : String)

/-- Message field of a validate_user_code result.  The graded and
gradedCustom forms carry the evaluator notes appended after the base
message (an empty list appends nothing); customFail is the message of a
failing custom check; customError carries the exception of "Error en
validador del ejercicio: E"; execFault carries the data of
"KIND: MESSAGE" for an exception raised by exec; noChecks is "No hay
validaciones definidas.". -/
inductive FMsg where
  | lint (m : LintMsg)
  | safety (m : SafetyMsg)
  | execFault (kind msg : String)
  | noChecks
  | graded (base : Msg) (notes : List Note)
  | gradedCustom (s : String) (notes : List Note)
  | customFail (s : String)
  | customError (kind msg : String)

/-- The dictionary returned by validate_user_code.  The stderr key is
absent from the whitespace-lint and safety-violation results and present
otherwise; lineno and offset are present only where the source sets
them. -/
structure PyResult where
  status : VStatus
  message : FMsg
  stdout : String
  stderr : Option String
  details : Details
  lineno : Option Nat
  offset : Option Nat

/-- Model of the Python expression `x or d` on the optional numeric
attributes of a SyntaxError: None and 0 are falsy. -/
def pyOrNat (v : Option Nat) (d : Nat) : Nat :=
  match v with
  | some n => if n = 0 then d else n
  | Option.none => d

/-- Line number attached to a safety-violation result: only a violation
caused by a SyntaxError carries one. -/
def safetyLineno : SafetyMsg → Option Nat
  | .syntaxErr _ l _ => some (pyOrNat l 1)
  | _ => Option.none

/-- Column attached to a safety-violation result. -/
def safetyOffset : SafetyMsg → Option Nat
  | .syntaxErr _ _ o => some (pyOrNat o 0)
  | _ => Option.none

/-- Model of validate_user_code: whitespace lint first, then the strict
safety analysis, then exec with the setup locals (exceptions are caught
into an error result), then the empty-checks guard, then the check
evaluator (whose exceptions are NOT caught: an `Except.error` of this
function is an exception escaping validate_user_code), then the optional
custom check (whose exceptions are caught). -/
def validate_user_code (src : Source) (ex : Exercise) : Except PyErr PyResult :=
  let lr := «_lint_whitespace» src.text
  if !lr.ok then
    .ok ⟨.fail, .lint lr.msg, "", Option.none, .empty, some lr.line, some lr.col⟩
  else
    match «_check_code_is_safe» src.parsed with
    | some sv =>
      .ok ⟨.error, .safety sv, "", Option.none, .empty, safetyLineno sv, safetyOffset sv⟩
    | Option.none =>
      match src.run ex.setup with
      | .raised kind msg out err =>
        .ok ⟨.error, .execFault kind msg, out, some err, .trace kind msg,
          Option.none, Option.none⟩
      | .done vars out err =>
        if ex.checks.isEmpty then
          .ok ⟨.error, .noChecks, out, some err, .empty, Option.none, Option.none⟩
        else
          match «_run_checks_with_exercise» ex.checks vars out ex with
          | .error e => .error e
          | .ok r =>
            if r.pass then
              match ex.customCheck with
              | some f =>
                match f r.vars out with
                | .error e =>
                  .ok ⟨.error, .customError e.kind e.msg, out, some err,
                    .trace e.kind e.msg, Option.none, Option.none⟩
                | .ok (false, cm) =>
                  .ok ⟨.fail, .customFail cm, out, some err, .empty,
                    Option.none, Option.none⟩
                | .ok (true, cm) =>
                  if cm ≠ "" then
                    .ok ⟨.ok, .gradedCustom cm r.notes, out, some err, .empty,
                      Option.none, Option.none⟩
                  else
                    .ok ⟨.ok, .graded r.msg r.notes, out, some err, .empty,
                      Option.none, Option.none⟩
              | Option.none =>
                .ok ⟨.ok, .graded r.msg r.notes, out, some err, .empty,
                  Option.none, Option.none⟩
            else
              .ok ⟨.fail, .graded r.msg r.notes, out, some err, .empty,
                Option.none, Option.none⟩

/-- Conversion of pyFloat on a numeric value: it returns the numeric
value and raises nothing. -/
theorem pyFloat_numeric (v : Val) (h : isNumV v = true) : pyFloat v = .ok (numOf v) := by
  cases v <;> simp [isNumV, pyNum?] at h <;> simp [pyFloat, numOf, pyNum?]

/-- Whether every paired element of the actual values and the expected
rationals is within the absolute tolerance. -/
def valsCloseAll (xs : List Val) (es : List ℚ) : Bool :=
  (xs.zip es).all (fun p => isCloseAbs (numOf p.1) p.2)

/-- Reading of valsCloseAll as a bound on the pairwise differences. -/
theorem valsCloseAll_iff (xs : List Val) (es : List ℚ) :
    valsCloseAll xs es = true ↔ ∀ p ∈ xs.zip es, |numOf p.1 - p.2| ≤ 1 / 1000000 := by
  simp [valsCloseAll, List.all_eq_true, isCloseAbs_iff]

/-- The element loop of _list_close on all-numeric items: it never raises
and returns the correct record exactly when all pairs are close,
otherwise the index-free tolerance record. -/
theorem listCloseLoop_spec (xs : List Val) (es : List ℚ) (w : List Note) (L : Nat)
    (hnum : xs.all isNumV = true) :
    listCloseLoop xs es w L =
      .ok (if valsCloseAll xs es then ⟨true, .correct, w, ⟨L, Option.none⟩⟩
           else ⟨false, .tolMismatch, w, ⟨L, Option.none⟩⟩) := by
  induction xs generalizing es with
  | nil => cases es <;> simp [listCloseLoop, valsCloseAll]
  | cons a as ih =>
    simp [List.all_cons] at hnum
    cases es with
    | nil => simp [listCloseLoop, valsCloseAll]
    | cons b bs =>
      simp only [listCloseLoop, pyFloat_numeric a hnum.1]
      by_cases hc : isCloseAbs (numOf a) b = true
      · rw [if_pos hc, ih bs (by simp [List.all_eq_true] at hnum ⊢; exact hnum.2)]
        have : valsCloseAll (a :: as) (b :: bs) = valsCloseAll as bs := by
          simp [valsCloseAll, hc]
        rw [this]
      · rw [if_neg hc]
        have : valsCloseAll (a :: as) (b :: bs) = false := by
          simp [valsCloseAll]
          intro h
          exact absurd h hc
        rw [this, if_neg (by simp)]

/-- Claim C6: for every ListClose check whose bound value and expected
list have equal length (and numeric elements, so that the float
conversion is defined), the check passes if and only if every element
pair differs by at most 1e-6 in absolute value (zero relative
tolerance), and on a mismatch the failure message is the constant
tolerance message, which names no index. -/
theorem claim_C6 (xs : List Val) (expected : List ℚ)
    (hlen : xs.length = expected.length) (hnum : xs.all isNumV = true) :
    («_list_close» (.list xs) expected =
        .ok ⟨true, .correct, [], ⟨expected.length, Option.none⟩⟩ ↔
      ∀ p ∈ xs.zip expected, |numOf p.1 - p.2| ≤ 1 / 1000000) ∧
    (¬ (∀ p ∈ xs.zip expected, |numOf p.1 - p.2| ≤ 1 / 1000000) →
      «_list_close» (.list xs) expected =
        .ok ⟨false, .tolMismatch, [], ⟨expected.length, Option.none⟩⟩) := by
  have hred : «_list_close» (.list xs) expected =
      listCloseLoop xs expected [] expected.length := by
    simp [«_list_close», «_as_list», isTextual, pyItems, hlen]
  rw [hred, listCloseLoop_spec xs expected [] expected.length hnum]
  constructor
  · rw [← valsCloseAll_iff]
    by_cases h : valsCloseAll xs expected = true
    · simp [h]
    · simp [h]
  · intro hnot
    rw [← valsCloseAll_iff] at hnot
    simp at hnot
    simp [hnot]

/-- Witness for C6: a two-element list whose second element differs from
the expected value by 1, far beyond the tolerance, fails with the
index-free tolerance message. -/
theorem claim_C6_witness :
    «_list_close» (.list [.float 1, .float 2]) [1, 3] =
      .ok ⟨false, .tolMismatch, [], ⟨2, Option.none⟩⟩ :=
  (claim_C6 [.float 1, .float 2] [1, 3] (by decide) (by decide)).2
    (fun hall => absurd ((valsCloseAll_iff _ _).mpr hall) (by decide))

/-- Claim C7: a ListClose check whose bound value has a length different
from the expected length fails with the length-mismatch message naming
both lengths, for every element content (in particular no element-wise
comparison is attempted: even elements on which the float conversion
would raise produce the normal length-mismatch result); and a text or
byte bound value fails immediately with the type-mismatch message. -/
theorem claim_C7 (xs : List Val) (s : String) (bs : List Nat) (expected : List ℚ)
    (hlen : xs.length ≠ expected.length) :
    «_list_close» (.list xs) expected =
      .ok ⟨false, .lengthMismatch expected.length xs.length, [],
        ⟨expected.length, some xs.length⟩⟩ ∧
    «_list_close» (.str s) expected =
      .ok ⟨false, .notAList, [], ⟨expected.length, Option.none⟩⟩ ∧
    «_list_close» (.bytes bs) expected =
      .ok ⟨false, .notAList, [], ⟨expected.length, Option.none⟩⟩ := by
  refine ⟨?_, by simp [«_list_close», «_as_list», isTextual],
    by simp [«_list_close», «_as_list», isTextual]⟩
  simp [«_list_close», «_as_list», isTextual, pyItems, hlen]

/-- Witness for C7: the boundary of the spec, an expected length of 4
against a 3-element actual (whose elements would not even convert to
float), names lengths 4 and 3; also the textual case on concrete text. -/
theorem claim_C7_witness :
    «_list_close» (.list [.noneV, .str "a", .noneV]) [1, 2, 3, 4] =
      .ok ⟨false, .lengthMismatch 4 3, [], ⟨4, some 3⟩⟩ ∧
    «_list_close» (.str "abc") [1, 2] =
      .ok ⟨false, .notAList, [], ⟨2, Option.none⟩⟩ :=
  ⟨(claim_C7 [.noneV, .str "a", .noneV] "abc" [] [1, 2, 3, 4] (by decide)).1,
   (claim_C7 [] "abc" [] [1, 2] (by decide)).2.1⟩

/-- A scan with findSome? returns a value once some list element
satisfies a predicate that guarantees a value. -/
theorem findSome?_isSome_of_any {α β : Type} (f : α → Option β) (p : α → Bool)
    (hp : ∀ x, p x = true → (f x).isSome = true) :
    ∀ l : List α, l.any p = true → (l.findSome? f).isSome = true := by
  intro l
  induction l with
  | nil => simp
  | cons a t ih =>
    intro h
    rw [List.findSome?_cons]
    cases hfa : f a with
    | some b => simp
    | none =>
      simp only [List.any_cons, Bool.or_eq_true] at h
      cases h with
      | inl hpa =>
        have := hp a hpa
        rw [hfa] at this
        simp at this
      | inr hany => exact ih hany

/-- Every value produced by a findSome? scan is produced by some element. -/
theorem findSome?_sound {α β : Type} (f : α → Option β) (P : β → Prop)
    (hf : ∀ x b, f x = some b → P b) :
    ∀ (l : List α) (b : β), l.findSome? f = some b → P b := by
  intro l
  induction l with
  | nil => simp
  | cons a t ih =>
    intro b h
    rw [List.findSome?_cons] at h
    cases hfa : f a with
    | some c =>
      rw [hfa] at h
      cases h
      exact hf a b hfa
    | none =>
      rw [hfa] at h
      exact ih b h

/-- Modules reported by the alias scan of an Import node are denylisted. -/
theorem rootFind_sound (names : List String) (m : String)
    (h : names.findSome? (fun nm =>
      if BLOCKED_MODULES.contains (rootModName nm) then some (rootModName nm)
      else Option.none) = some m) : BLOCKED_MODULES.contains m = true := by
  induction names with
  | nil => simp at h
  | cons a t ih =>
    rw [List.findSome?_cons] at h
    by_cases hc : BLOCKED_MODULES.contains (rootModName a) = true
    · simp only [hc, if_true] at h
      cases h
      exact hc
    · simp only [Bool.not_eq_true] at hc
      simp only [hc, Bool.false_eq_true, if_false] at h
      exact ih h

/-- Modules reported by the per-node blocked-import test are denylisted. -/
theorem nodeBlocked_sound (n : Ast) (m : String) (h : nodeBlocked n = some m) :
    BLOCKED_MODULES.contains m = true := by
  cases n with
  | imp names => exact rootFind_sound names m h
  | impFrom mo =>
    simp only [nodeBlocked] at h
    by_cases hc : BLOCKED_MODULES.contains (rootModName (mo.getD "")) = true
    · simp only [hc, if_true] at h
      cases h
      exact hc
    · simp only [Bool.not_eq_true] at hc
      simp only [hc, Bool.false_eq_true, if_false] at h
      exact Option.noConfusion h
  | call f args =>
    simp only [nodeBlocked] at h
    split at h
    · split at h
      · cases h
        rename_i hcond
        exact (Bool.and_eq_true _ _ |>.mp hcond).2
      · cases h
    · cases h
  | module body => simp [nodeBlocked] at h
  | globalStmt => simp [nodeBlocked] at h
  | nonlocalStmt => simp [nodeBlocked] at h
  | name id => simp [nodeBlocked] at h
  | attr v a => simp [nodeBlocked] at h
  | assign ts v => simp [nodeBlocked] at h
  | exprStmt v => simp [nodeBlocked] at h
  | constStr s => simp [nodeBlocked] at h
  | constVal => simp [nodeBlocked] at h
  | other cs => simp [nodeBlocked] at h

/-- Claim C3: for every run of the Process Executor that reaches the
spawn (the coarse analyzer reports nothing), the outcome is mapped
exactly as: expired wall-clock timeout to the Timeout status; a
signal-terminated (negative) exit to Timeout with the resource-limit
message; zero exit to Ok; non-zero exit to Error with the last line of
the stripped stderr as message (the default message when stderr is
blank); and a spawning failure to Error. -/
theorem claim_C3 (parsed : Except SynErr Ast) (lim : Bool) (dur : Nat)
    (h : «_detect_blocked_import» parsed = Option.none) :
    (∀ so se, run_user_code parsed (.timeoutExpired so se) lim dur =
      ⟨.timeout, so.getD "", se.getD "", .timeExceeded, dur, warnsOf lim⟩) ∧
    (∀ m, run_user_code parsed (.spawnError m) lim dur =
      ⟨.error, "", "", .spawnFailed m, dur, warnsOf lim⟩) ∧
    (∀ rc so se, rc < 0 → run_user_code parsed (.completed rc so se) lim dur =
      ⟨.timeout, so, se, .resourceLimit, dur, warnsOf lim⟩) ∧
    (∀ so se, run_user_code parsed (.completed 0 so se) lim dur =
      ⟨.ok, so, se, .execCompleted, dur, warnsOf lim⟩) ∧
    (∀ rc so se, 0 < rc → run_user_code parsed (.completed rc so se) lim dur =
      ⟨.error, so, se,
        (if pyStrip se = "" then .defaultExecError
         else .stderrLine (lastLine (pyStrip se))), dur, warnsOf lim⟩) := by
  refine ⟨?_, ?_, ?_, ?_, ?_⟩
  · intro so se
    simp [run_user_code, h]
  · intro m
    simp [run_user_code, h]
  · intro rc so se hrc
    simp [run_user_code, h, hrc]
  · intro so se
    simp [run_user_code, h]
  · intro rc so se hrc
    have h1 : ¬ rc < 0 := by omega
    have h2 : ¬ rc = 0 := by omega
    simp [run_user_code, h, h1, h2, errMsgOf]

/-- Witness for C3: on a source whose parse failed (so the coarse
analyzer reports nothing), a non-zero exit with a two-line stderr is
mapped to Error carrying the last stderr line, and an expired timeout is
mapped to Timeout. -/
theorem claim_C3_witness :
    run_user_code (.error ⟨"bad", Option.none, Option.none⟩)
        (.completed 2 "out" "boom\nlast\n") true 7 =
      ⟨.error, "out", "boom\nlast\n", .stderrLine "last", 7, []⟩ ∧
    run_user_code (.error ⟨"bad", Option.none, Option.none⟩)
        (.timeoutExpired Option.none (some "partial")) false 9 =
      ⟨.timeout, "", "partial", .timeExceeded, 9, [.limitsUnavailable]⟩ := by
  constructor
  · have h := (claim_C3 (.error ⟨"bad", Option.none, Option.none⟩) true 7 rfl).2.2.2.2
      2 "out" "boom\nlast\n" (by decide)
    rw [h]
    rfl
  · have h := (claim_C3 (.error ⟨"bad", Option.none, Option.none⟩) false 9 rfl).1
      Option.none (some "partial")
    rw [h]
    rfl

/-- Claim C5: whenever the coarse analyzer reports a module for a source
text, run_user_code returns the blocked result immediately for every
spawn outcome and every limiter availability (in particular the result
does not depend on any spawn, and its warnings list is empty because the
blocked return precedes the limiter-warning append), and the reported
module is denylisted; a source whose parse failed is never flagged (the
detector reports nothing, so by C3 the executor proceeds and surfaces
the failure of the spawned child); and whenever some node of the tree is
an import, from-import or dynamic-import call with a denylisted root,
the detector does report a module. -/
theorem claim_C5 :
    (∀ (parsed : Except SynErr Ast) (m : String) (spawn : SpawnOutcome)
        (lim : Bool) (dur : Nat),
      «_detect_blocked_import» parsed = some m →
        run_user_code parsed spawn lim dur =
          ⟨.blocked, "", "", .blockedImport m, dur, []⟩ ∧
        BLOCKED_MODULES.contains m = true) ∧
    (∀ tree : Ast,
      (walk tree).any (fun n => (nodeBlocked n).isSome) = true →
        («_detect_blocked_import» (.ok tree)).isSome = true) ∧
    (∀ se : SynErr, «_detect_blocked_import» (.error se) = Option.none) := by
  refine ⟨?_, ?_, ?_⟩
  · intro parsed m spawn lim dur h
    constructor
    · simp [run_user_code, h]
    · match parsed with
      | .error se => simp [«_detect_blocked_import»] at h
      | .ok tree =>
        simp only [«_detect_blocked_import»] at h
        exact findSome?_sound nodeBlocked (fun b => BLOCKED_MODULES.contains b = true)
          nodeBlocked_sound (walk tree) m h
  · intro tree hany
    simp only [«_detect_blocked_import»]
    exact findSome?_isSome_of_any nodeBlocked (fun n => (nodeBlocked n).isSome)
      (fun x hx => hx) (walk tree) hany
  · intro se
    rfl

/-- Witness for C5: a module importing os is blocked without consulting
the spawn outcome and with an empty warnings list even on a host without
the resource limiter, os is denylisted, a tree with a from-import of a
denylisted module is detected, and a parse failure is not flagged. -/
theorem claim_C5_witness :
    run_user_code (.ok (.module [.imp ["os"]])) (.completed 0 "" "") false 3 =
      ⟨.blocked, "", "", .blockedImport "os", 3, []⟩ ∧
    BLOCKED_MODULES.contains "os" = true ∧
    («_detect_blocked_import» (.ok (.module [.impFrom (some "sys.path")]))).isSome = true ∧
    «_detect_blocked_import» (.error ⟨"bad", some 1, some 1⟩) = Option.none := by
  refine ⟨?_, ?_, ?_, ?_⟩
  · exact (claim_C5.1 (.ok (.module [.imp ["os"]])) "os" (.completed 0 "" "") false 3 rfl).1
  · exact (claim_C5.1 (.ok (.module [.imp ["os"]])) "os" (.completed 0 "" "") false 3 rfl).2
  · exact claim_C5.2.1 (.module [.impFrom (some "sys.path")]) (by decide)
  · exact claim_C5.2.2 ⟨"bad", some 1, some 1⟩

/-- Whether a node is an import statement (plain or from-import). -/
def isImportNode : Ast → Bool
  | .imp _ => true
  | .impFrom _ => true
  | _ => false

/-- Whether a tree contains an import statement. -/
def containsImport (t : Ast) : Bool := (walk t).any isImportNode

/-- An import node always triggers a safety violation. -/
theorem importNode_violation (n : Ast) (h : isImportNode n = true) :
    (nodeViolation n).isSome = true := by
  cases n <;> simp [isImportNode] at h <;> simp [nodeViolation]

/-- Counterexample to claim C4 as stated: the source text consisting of
a global statement followed by an import contains an import statement
and is rejected by the strict path before execution with empty stdout,
but the message names the global/nonlocal category, not the import
category, because the global statement precedes the import in the
breadth-first walk and the first violating node determines the message. -/
theorem claim_C4_counterexample :
    containsImport (.module [.globalStmt, .imp ["os"]]) = true ∧
    validate_user_code
        ⟨"global x\nimport os", .ok (.module [.globalStmt, .imp ["os"]]),
          fun _ => .done [] "" ""⟩
        ⟨[], [.outputContains "5" Option.none], [], Option.none⟩ =
      .ok ⟨.error, .safety .noGlobalNonlocal, "", Option.none, .empty,
        Option.none, Option.none⟩ ∧
    FMsg.safety .noGlobalNonlocal ≠ FMsg.safety .noImports := by
  refine ⟨by decide, by rfl, by simp⟩

/-- Claim C4 amended: for every source text that passes the whitespace
lint and whose tree contains an import statement, validate_user_code
rejects it before any execution (the result does not consult the exec
oracle): the result is a safety-violation error with empty captured
stdout and no binding produced, carrying the violation of the first
violating node in breadth-first order; the message names the import
category exactly when that first violation is the import one (so always
when the source has no other violating construct). -/
theorem claim_C4 (text : String) (tree : Ast) (run : Bindings → ExecOutcome)
    (ex : Exercise) (hl : («_lint_whitespace» text).ok = true)
    (himp : containsImport tree = true) :
    ((«_check_code_is_safe» (.ok tree)).isSome = true) ∧
    (∀ sv, «_check_code_is_safe» (.ok tree) = some sv →
      validate_user_code ⟨text, .ok tree, run⟩ ex =
        .ok ⟨.error, .safety sv, "", Option.none, .empty,
          safetyLineno sv, safetyOffset sv⟩) := by
  constructor
  · exact findSome?_isSome_of_any nodeViolation isImportNode importNode_violation
      (walk tree) himp
  · intro sv hsv
    simp [validate_user_code, hl, hsv]

/-- Witness for C4: a source consisting only of an import is rejected as
a safety violation whose message is the import one, with empty stdout,
for an arbitrary exec oracle. -/
theorem claim_C4_witness :
    ((«_check_code_is_safe» (.ok (.module [.imp ["os"]]))).isSome = true) ∧
    validate_user_code
        ⟨"import os", .ok (.module [.imp ["os"]]), fun _ => .done [] "" ""⟩
        ⟨[], [], [], Option.none⟩ =
      .ok ⟨.error, .safety .noImports, "", Option.none, .empty,
        Option.none, Option.none⟩ := by
  have h := claim_C4 "import os" (.module [.imp ["os"]]) (fun _ => .done [] "" "")
    ⟨[], [], [], Option.none⟩ rfl (by decide)
  exact ⟨h.1, h.2 .noImports rfl⟩

/-- A per-line lint issue exists independently of the reported index. -/
theorem lineLintIssue_isSome (idx : Nat) (cs : List Char) :
    (lineLintIssue idx cs).isSome = lineDirty cs := by
  unfold lineDirty lineLintIssue
  cases htc : tabCol cs <;> simp [htc] <;> cases trailingDirty cs <;> simp

/-- The lint loop starting at a given index reports the first dirty line
with its 1-based position: the reported index is at least the start, the
line at the reported offset is dirty, and every earlier line is clean. -/
theorem lintLoop_spec (ls : List (List Char)) : ∀ start, ls.any lineDirty = true →
    ∃ m l c, lintLoop start ls = ⟨false, m, l, c⟩ ∧ start ≤ l ∧
      lineDirty (ls.getD (l - start) []) = true ∧
      (∀ j, j < l - start → lineDirty (ls.getD j []) = false) := by
  induction ls with
  | nil => simp
  | cons a t ih =>
    intro start hany
    cases hiss : lineLintIssue start a with
    | some mc =>
      refine ⟨mc.1, start, mc.2, ?_, le_refl _, ?_, ?_⟩
      · simp [lintLoop, hiss]
      · have h := lineLintIssue_isSome start a
        rw [hiss] at h
        simp at h
        simpa [Nat.sub_self] using h.symm
      · intro j hj
        omega
    | none =>
      have hda : lineDirty a = false := by
        have h := lineLintIssue_isSome start a
        rw [hiss] at h
        simpa using h.symm
      have hany' : t.any lineDirty = true := by
        simp only [List.any_cons, hda, Bool.false_or] at hany
        exact hany
      obtain ⟨m, l, c, heq, hge, hdirty, hclean⟩ := ih (start + 1) hany'
      refine ⟨m, l, c, ?_, by omega, ?_, ?_⟩
      · simp [lintLoop, hiss, heq]
      · have hix : l - start = (l - (start + 1)) + 1 := by omega
        rw [hix, List.getD_cons_succ]
        exact hdirty
      · intro j hj
        cases j with
        | zero => simpa using hda
        | succ k =>
          have hk : k < l - (start + 1) := by omega
          rw [List.getD_cons_succ]
          exact hclean k hk

/-- Claim C9: for every source text with a line carrying a tab in its
leading indentation or trailing whitespace, validate_user_code returns
the whitespace rejection before parsing, safety analysis or execution
(the parse result and the exec oracle are arbitrary and the result does
not depend on them): the result carries the 1-based number of the first
offending line, a column within it, and empty stdout. -/
theorem claim_C9 (code : String) (parsed : Except SynErr Ast)
    (run : Bindings → ExecOutcome) (ex : Exercise)
    (hd : (splitLinesCh code.toList).any lineDirty = true) :
    ∃ m l c, «_lint_whitespace» code = ⟨false, m, l, c⟩ ∧ 1 ≤ l ∧
      lineDirty ((splitLinesCh code.toList).getD (l - 1) []) = true ∧
      (∀ j, j < l - 1 → lineDirty ((splitLinesCh code.toList).getD j []) = false) ∧
      validate_user_code ⟨code, parsed, run⟩ ex =
        .ok ⟨.fail, .lint m, "", Option.none, .empty, some l, some c⟩ := by
  obtain ⟨m, l, c, heq, hge, hdirty, hclean⟩ :=
    lintLoop_spec (splitLinesCh code.toList) 1 hd
  refine ⟨m, l, c, heq, hge, hdirty, hclean, ?_⟩
  have hlint : «_lint_whitespace» code = ⟨false, m, l, c⟩ := heq
  simp [validate_user_code, hlint]

/-- Witness for C9: a first line ending in a space is rejected at line 1,
column 6 (its length), for an arbitrary parse and exec oracle. -/
theorem claim_C9_witness :
    «_lint_whitespace» "x = 1 \ny" = ⟨false, .removeTrailing 1, 1, 6⟩ ∧
    validate_user_code
        ⟨"x = 1 \ny", .ok (.module []), fun _ => .done [] "" ""⟩
        ⟨[], [], [], Option.none⟩ =
      .ok ⟨.fail, .lint (.removeTrailing 1), "", Option.none, .empty,
        some 1, some 6⟩ := by
  obtain ⟨m, l, c, heq, hge, hdirty, hclean, hval⟩ :=
    claim_C9 "x = 1 \ny" (.ok (.module [])) (fun _ => .done [] "" "")
      ⟨[], [], [], Option.none⟩ (by decide)
  have hcomp : «_lint_whitespace» "x = 1 \ny" = ⟨false, .removeTrailing 1, 1, 6⟩ := rfl
  rw [hcomp] at heq
  injection heq with h1 h2 h3 h4
  subst h2 h3 h4
  exact ⟨hcomp, hval⟩

/-- Claim C10: for every source that passes the lint, the safety
analysis and execution, an exercise with an empty check list yields an
error-status result (the error status differs from the passing ok
status) with the no-validations message, while the captured stdout of
the execution is still included. -/
theorem claim_C10 (text : String) (parsed : Except SynErr Ast)
    (run : Bindings → ExecOutcome) (ex : Exercise) (vars : Bindings) (out err : String)
    (hl : («_lint_whitespace» text).ok = true)
    (hs : «_check_code_is_safe» parsed = Option.none)
    (hr : run ex.setup = .done vars out err)
    (hc : ex.checks = []) :
    validate_user_code ⟨text, parsed, run⟩ ex =
      .ok ⟨.error, .noChecks, out, some err, .empty, Option.none, Option.none⟩ := by
  simp [validate_user_code, hl, hs, hr, hc]

/-- Witness for C10: an assignment that executed and printed, graded by
an exercise with no checks, yields the no-validations error while its
stdout is preserved in the result. -/
theorem claim_C10_witness :
    validate_user_code
        ⟨"x = 1", .ok (.module [.assign [.name "x"] .constVal]),
          fun _ => .done [("x", .int 1)] "printed\n" ""⟩
        ⟨[], [], [], Option.none⟩ =
      .ok ⟨.error, .noChecks, "printed\n", some "", .empty, Option.none, Option.none⟩ :=
  claim_C10 "x = 1" (.ok (.module [.assign [.name "x"] .constVal]))
    (fun _ => .done [("x", .int 1)] "printed\n" "") ⟨[], [], [], Option.none⟩
    [("x", .int 1)] "printed\n" "" rfl rfl rfl rfl

/-- Claim C1 (the code contradicts it): a ListClose check whose bound
sequence contains a non-numeric element makes validate_user_code raise
an uncaught exception.  The learner code assigns a one-element list
holding None; all earlier stages succeed, and during check evaluation
_list_close applies the float conversion to None, which raises a
TypeError that no frame of validate_user_code catches, so the exception
escapes instead of becoming a structured error result. -/
theorem claim_C1_fault_escapes :
    validate_user_code
        ⟨"result = [None]",
          .ok (.module [.assign [.name "result"] (.other [.constVal])]),
          fun _ => .done [("result", .list [.noneV])] "" ""⟩
        ⟨[], [.listClose "result" [1] Option.none Option.none], [], Option.none⟩ =
      .error ⟨"TypeError", "float argument must be a string or a real number"⟩ := by
  rfl

/-- Counterexample to claim C2 as stated: with a binding holding a lazy
map object, the first evaluator run materializes (and thereby exhausts)
the object, so the second run on the very same binding set — in Python
the same dictionary holding the same, now exhausted, map object — sees
an empty sequence: the first run passes with the correct message while
the second fails with a length-mismatch message. -/
theorem claim_C2_counterexample :
    «_run_checks_with_exercise» [.listClose "result" [1] Option.none Option.none]
        [("result", .mapObj [.float 1])] "" ⟨[], [], [], Option.none⟩ =
      .ok ⟨true, .correct, [.mapToListHint, .convertedMapToList],
        [("result", .mapObj [])]⟩ ∧
    «_run_checks_with_exercise» [.listClose "result" [1] Option.none Option.none]
        [("result", .mapObj [])] "" ⟨[], [], [], Option.none⟩ =
      .ok ⟨false, .listCloseFailLen (.lengthMismatch 1 0) 1,
        [.mapToListHint, .convertedMapToList], [("result", .mapObj [])]⟩ ∧
    (true ≠ false) ∧
    Msg.correct ≠ Msg.listCloseFailLen (.lengthMismatch 1 0) 1 := by
  refine ⟨rfl, rfl, by decide, fun h => Msg.noConfusion h⟩

/-- Whether no binding holds a lazy map object. -/
def noMapBindings (vars : Bindings) : Bool :=
  vars.all (fun p => !isMapV p.2)

/-- Under map-free bindings, every value a lookup produces is map-free. -/
theorem lookupB_noMap (vars : Bindings) (hn : noMapBindings vars = true) (k : String) :
    isMapV ((lookupB vars k).getD .noneV) = false := by
  cases hlk : lookupB vars k with
  | none => rfl
  | some v =>
    simp only [Option.getD_some]
    unfold lookupB at hlk
    cases hf : vars.find? (fun p => p.1 = k) with
    | none => rw [hf] at hlk; simp at hlk
    | some p =>
      rw [hf] at hlk
      simp at hlk
      have hmem := List.mem_of_find?_eq_some hf
      have hall := List.all_eq_true.mp hn p hmem
      rw [hlk] at hall
      simpa using hall

/-- The evaluator loop leaves a map-free binding set unchanged: the only
mutation it performs is the exhaustion of a map object. -/
theorem runChecksLoop_vars (checks : List Check) :
    ∀ (vars : Bindings) (out : String) (ex : Exercise) (flag : Bool)
      (notes : List Note) (r : EvalRes), noMapBindings vars = true →
      runChecksLoop checks vars out ex flag notes = .ok r → r.vars = vars := by
  induction checks with
  | nil =>
    intro vars out ex flag notes r hn h
    cases h
    rfl
  | cons c rest ih =>
    intro vars out ex flag notes r hn h
    cases c with
    | equals var expected msg? =>
      rw [runChecksLoop] at h
      by_cases hsel : («_select_var» var vars ex).2.1 = true
      · rw [if_pos hsel] at h
        by_cases heq : pyEq ((lookupB vars («_select_var» var vars ex).1).getD .noneV)
            expected = true
        · rw [if_pos heq] at h
          exact ih vars out ex flag _ r hn h
        · rw [if_neg heq] at h
          cases h
          rfl
      · rw [if_neg hsel] at h
        by_cases hf : flag = true
        · rw [if_pos hf] at h
          cases h
          rfl
        · rw [if_neg hf] at h
          cases h
          rfl
    | listClose var expected msg? summary? =>
      have hmap : isMapV ((lookupB vars («_select_var» var vars ex).1).getD .noneV)
          = false := lookupB_noMap vars hn _
      simp only [runChecksLoop, hmap, Bool.false_eq_true, if_false,
        List.append_nil] at h
      by_cases hsel : («_select_var» var vars ex).2.1 = true
      · rw [if_pos hsel] at h
        cases hlc : «_list_close» ((lookupB vars («_select_var» var vars ex).1).getD .noneV)
            expected with
        | error e => rw [hlc] at h; exact Except.noConfusion h
        | ok lr =>
          simp only [hlc] at h
          by_cases hp : lr.pass = true
          · rw [if_pos hp] at h
            exact ih vars out ex flag _ r hn h
          · rw [if_neg hp] at h
            by_cases hsum : (summary?.getD "") ≠ ""
            · rw [if_pos hsum] at h
              cases h
              rfl
            · rw [if_neg hsum] at h
              cases h
              rfl
      · rw [if_neg hsel] at h
        by_cases hf : flag = true
        · rw [if_pos hf] at h
          cases h
          rfl
        · rw [if_neg hf] at h
          cases h
          rfl
    | outputContains expected msg? =>
      rw [runChecksLoop] at h
      by_cases hc : strHasSub out expected = true
      · rw [if_pos hc] at h
        exact ih vars out ex flag _ r hn h
      · rw [if_neg hc] at h
        cases h
        rfl
    | unsupported =>
      rw [runChecksLoop] at h
      cases h
      rfl

/-- Claim C2 amended: the Check Evaluator is idempotent on binding sets
holding no lazy map object: such a run leaves the binding set unchanged,
so running again on the state the first run leaves behind (the same
dictionary and objects in Python) yields the identical pass/fail outcome
and identical message.  A binding holding a map object is exhausted by
the first run, and a second run can differ (see the counterexample). -/
theorem claim_C2 (checks : List Check) (vars : Bindings) (out : String)
    (ex : Exercise) (r : EvalRes) (hn : noMapBindings vars = true)
    (h : «_run_checks_with_exercise» checks vars out ex = .ok r) :
    r.vars = vars ∧ «_run_checks_with_exercise» checks r.vars out ex = .ok r := by
  have hv : r.vars = vars :=
    runChecksLoop_vars checks vars out ex (outputHasExpected checks out) [] r hn h
  exact ⟨hv, by rw [hv]; exact h⟩

/-- Witness for C2: a passing equals check over an int binding leaves the
bindings unchanged and a second run returns the identical result. -/
theorem claim_C2_witness :
    (⟨true, .correct, [], [("x", .int 1)]⟩ : EvalRes).vars = [("x", .int 1)] ∧
    «_run_checks_with_exercise» [.equals "x" (.int 1) Option.none]
        (⟨true, .correct, [], [("x", .int 1)]⟩ : EvalRes).vars ""
        ⟨[], [], [], Option.none⟩ =
      .ok ⟨true, .correct, [], [("x", .int 1)]⟩ :=
  claim_C2 [.equals "x" (.int 1) Option.none] [("x", .int 1)] ""
    ⟨[], [], [], Option.none⟩ ⟨true, .correct, [], [("x", .int 1)]⟩
    (by decide) rfl

/-- Whether neither the declared name nor any accepted alternate name is
bound. -/
def noResolve (var : String) (vars : Bindings) (ex : Exercise) : Bool :=
  !containsB vars var && ex.acceptedVars.all (fun a => !containsB vars a)

/-- Claim C8: variable resolution for Equals and ListClose checks looks
up the declared name first; when it is unbound, the accepted alternate
names are tried in declaration order and the first bound one wins; and
when no name resolves, the check fails with the store-under-the-required-
name message when some output-contains expectation already appears in the
captured output, and the variable-not-created message otherwise (the
accepted-names note is appended when the alternate list is non-empty). -/
theorem claim_C8 (var : String) (vars : Bindings) (ex : Exercise) (out : String) :
    (containsB vars var = true → «_select_var» var vars ex = (var, true, [])) ∧
    (containsB vars var = false →
      «_select_var» var vars ex =
        match ex.acceptedVars.find? (fun a => containsB vars a) with
        | some alt => (alt, true, [])
        | Option.none =>
          (var, false,
            if ex.acceptedVars.isEmpty then []
            else [.acceptedVarsHint ex.acceptedVars var])) ∧
    (∀ (expected : Val) (msg? : Option String) (rest : List Check),
      noResolve var vars ex = true →
      «_run_checks_with_exercise» (Check.equals var expected msg? :: rest) vars out ex =
        .ok ⟨false,
          (if outputHasExpected (Check.equals var expected msg? :: rest) out then
            Msg.storeUnderRequired var else Msg.varNotCreated var),
          (if ex.acceptedVars.isEmpty then []
           else [.acceptedVarsHint ex.acceptedVars var]), vars⟩) ∧
    (∀ (expected : List ℚ) (msg? summary? : Option String) (rest : List Check),
      noResolve var vars ex = true →
      «_run_checks_with_exercise»
          (Check.listClose var expected msg? summary? :: rest) vars out ex =
        .ok ⟨false,
          (if outputHasExpected (Check.listClose var expected msg? summary? :: rest) out
           then Msg.storeUnderRequired var else Msg.varNotCreated var),
          (if ex.acceptedVars.isEmpty then []
           else [.acceptedVarsHint ex.acceptedVars var]), vars⟩) := by
  have hfindnone : ∀ (h1 : containsB vars var = false)
      (h2 : ex.acceptedVars.all (fun a => !containsB vars a) = true),
      «_select_var» var vars ex =
        (var, false,
          if ex.acceptedVars.isEmpty then []
          else [.acceptedVarsHint ex.acceptedVars var]) := by
    intro h1 h2
    have hf : ex.acceptedVars.find? (fun a => containsB vars a) = Option.none := by
      rw [List.find?_eq_none]
      intro x hx
      have := List.all_eq_true.mp h2 x hx
      simp at this
      simp [this]
    simp [«_select_var», h1, hf]
  refine ⟨?_, ?_, ?_, ?_⟩
  · intro h
    simp [«_select_var», h]
  · intro h
    simp [«_select_var», h]
  · intro expected msg? rest hnr
    rw [noResolve, Bool.and_eq_true] at hnr
    have h1 : containsB vars var = false := by simpa using hnr.1
    have hsel := hfindnone h1 hnr.2
    rw [«_run_checks_with_exercise», runChecksLoop, hsel]
    by_cases hf : outputHasExpected (Check.equals var expected msg? :: rest) out = true
    · simp [hf]
    · simp only [Bool.not_eq_true] at hf
      simp [hf]
  · intro expected msg? summary? rest hnr
    rw [noResolve, Bool.and_eq_true] at hnr
    have h1 : containsB vars var = false := by simpa using hnr.1
    have hsel := hfindnone h1 hnr.2
    rw [«_run_checks_with_exercise», runChecksLoop, hsel]
    by_cases hf : outputHasExpected (Check.listClose var expected msg? summary? :: rest) out
        = true
    · simp [hf]
    · simp only [Bool.not_eq_true] at hf
      simp [hf]

/-- Witness for C8: with bindings holding only a variable named res, the
declared name resultado does not resolve, the alternate list picks res
(first match), and with no alternates and no matching output the
variable-not-created message is produced. -/
theorem claim_C8_witness :
    «_select_var» "res" [("res", .int 3)] ⟨[], [], [], Option.none⟩ =
      ("res", true, []) ∧
    («_select_var» "resultado" [("res", .int 3)]
        ⟨[], [], ["total", "res"], Option.none⟩ =
      match (["total", "res"].find? (fun a => containsB [("res", .int 3)] a)) with
      | some alt => (alt, true, [])
      | Option.none =>
        ("resultado", false,
          if (["total", "res"] : List String).isEmpty then []
          else [Note.acceptedVarsHint ["total", "res"] "resultado"])) ∧
    «_run_checks_with_exercise» [Check.equals "resultado" (.int 3) Option.none]
        [("x", .int 3)] "" ⟨[], [], [], Option.none⟩ =
      .ok ⟨false,
        (if outputHasExpected [Check.equals "resultado" (.int 3) Option.none] "" then
          Msg.storeUnderRequired "resultado" else Msg.varNotCreated "resultado"),
        (if ([] : List String).isEmpty then []
         else [.acceptedVarsHint [] "resultado"]), [("x", .int 3)]⟩ := by
  refine ⟨?_, ?_, ?_⟩
  · exact (claim_C8 "res" [("res", .int 3)] ⟨[], [], [], Option.none⟩ "").1 rfl
  · exact (claim_C8 "resultado" [("res", .int 3)]
      ⟨[], [], ["total", "res"], Option.none⟩ "").2.1 rfl
  · exact (claim_C8 "resultado" [("x", .int 3)] ⟨[], [], [], Option.none⟩ "").2.2.1
      (.int 3) Option.none [] rfl
